import Mathlib

/-!
Verification development for the DocAi field-extraction and
document-classification core (`detection/views.py`).

Strings are modelled as lists of Unicode codepoints (`Str := List Nat`).
Python's `str.lower` / `str.upper` are modelled on the ASCII range (the
non-ASCII codepoints occurring in the source are caseless Hangul
syllables, on which Python's case maps are the identity).  Python's
whitespace set is modelled by the six ASCII whitespace characters.
`re` patterns are embedded into a small regex AST (`RE`) together with a
backtracking matcher that follows Python's leftmost, preference-order
(greedy, left-biased alternation) matching discipline; the only
quantified subexpressions occurring in the source's patterns are single
character classes (plus `(?:...)?`, embedded as `RE.opt`), so unbounded
repetition is embedded by counting the maximal class run and trying
lengths greedily.  The float comparison `len(existing) > len(line) * 1.2`
in `ultimate_preprocessing` is embedded as the exact rational comparison
`5 * len(existing) > 6 * len(line)`; for every pair of lengths the IEEE
double computation in the source agrees with this (the error of the
double nearest to 1.2 times an integer is below half an ulp of the exact
value, so the rounded product compares identically against integers).
-/

/-- Strings as lists of Unicode codepoints. -/
abbrev Str := List Nat

/-- Codepoints of a Lean string literal, used to write concrete inputs. -/
def strOf (s : String) : Str := s.data.map Char.toNat

/-- ASCII lower-casing of one codepoint (Python `str.lower`, restricted
to the ASCII range; all other codepoints are left unchanged). -/
def asciiLower (c : Nat) : Nat := if 65 ≤ c ∧ c ≤ 90 then c + 32 else c

/-- ASCII upper-casing of one codepoint (Python `str.upper`, restricted
to the ASCII range). -/
def asciiUpper (c : Nat) : Nat := if 97 ≤ c ∧ c ≤ 122 then c - 32 else c

/-- Python `str.lower`. -/
def lowerStr (s : Str) : Str := s.map asciiLower

/-- Python `str.upper`. -/
def upperStr (s : Str) : Str := s.map asciiUpper

/-- Whitespace (Python `\s` and `str.strip`, ASCII part). -/
def isSpaceCh (c : Nat) : Bool := c = 32 || c = 9 || c = 10 || c = 11 || c = 12 || c = 13

/-- ASCII decimal digit (`\d`). -/
def isDigitCh (c : Nat) : Bool := 48 ≤ c && c ≤ 57

/-- ASCII uppercase letter (`[A-Z]` outside of `re.IGNORECASE`). -/
def isUpperAZ (c : Nat) : Bool := 65 ≤ c && c ≤ 90

/-- ASCII lowercase letter (`[a-z]`). -/
def isLowerAZ (c : Nat) : Bool := 97 ≤ c && c ≤ 122

/-- ASCII letter (`[A-Z]` under `re.IGNORECASE`). -/
def isAsciiLetterCh (c : Nat) : Bool := isUpperAZ c || isLowerAZ c

/-- Word character (`\w`): ASCII alphanumerics, underscore, and all
non-ASCII codepoints occurring in this code base (Hangul syllables,
which Python counts as word characters). -/
def isWordCh (c : Nat) : Bool := isDigitCh c || isAsciiLetterCh c || c = 95 || 128 ≤ c

/-- Python `str.strip` on the front. -/
def stripFront (s : Str) : Str := s.dropWhile isSpaceCh

/-- Python `str.strip` (both ends). -/
def stripStr (s : Str) : Str := ((stripFront s).reverse.dropWhile isSpaceCh).reverse

/-- Python substring containment `needle in hay`. -/
def containsSub (n : Str) : Str → Bool
  | [] => n.isPrefixOf []
  | c :: t => n.isPrefixOf (c :: t) || containsSub n t

/-! ### Regex AST and matcher -/

/-- Regex AST covering the constructs used by `detection/views.py`:
character classes, concatenation, alternation, `(?:...)?`, counted
class repetition `{lo,hi}` (with `hi = none` for `*`/`+`), capturing
groups, (negative) lookahead, `\b` and `$`. -/
inductive RE where
  | eps
  | cls (p : Nat → Bool)
  | cat (a b : RE)
  | alt (a b : RE)
  | opt (a : RE)
  | repC (p : Nat → Bool) (lo : Nat) (hi : Option Nat)
  | grp (i : Nat) (a : RE)
  | look (neg : Bool) (a : RE)
  | wordB
  | eos

/-- Captured groups: group index paired with the captured text
(most recent capture first). -/
abbrev Caps := List (Nat × Str)

/-- Matcher result: end position of the match and the captures. -/
abbrev MRes := Option (Nat × Caps)

/-- Record a capture. -/
def setCap (i : Nat) (s : Str) (g : Caps) : Caps := (i, s) :: g

/-- Read a capture (Python `findall` renders unmatched groups as `''`). -/
def getCap (i : Nat) (g : Caps) : Str :=
  ((g.find? (fun e => e.1 = i)).map Prod.snd).getD []

/-- `(t.drop a).take (b - a)`: the slice `t[a:b]`. -/
def sliceStr (t : Str) (a b : Nat) : Str := (t.drop a).take (b - a)

/-- Length of the maximal run of class characters. -/
def countRun (p : Nat → Bool) : Str → Nat
  | [] => 0
  | c :: t => if p c then countRun p t + 1 else 0

/-- Greedy counted repetition: try `n` characters first, then fewer,
down to `lo`. -/
def tryCounts (k : Nat → Caps → MRes) (g : Caps) (pos lo : Nat) : Nat → MRes
  | 0 => if lo = 0 then k pos g else none
  | n + 1 =>
      if n + 1 < lo then none
      else
        match k (pos + n + 1) g with
        | some r => some r
        | none => tryCounts k g pos lo n

/-- Backtracking matcher in continuation-passing style.  Returns the
first success in Python's preference order (greedy repetition,
left-biased alternation). -/
def reM (t : Str) : RE → Nat → Caps → (Nat → Caps → MRes) → MRes
  | .eps, pos, g, k => k pos g
  | .cls p, pos, g, k =>
      match t.drop pos with
      | [] => none
      | c :: _ => if p c then k (pos + 1) g else none
  | .cat a b, pos, g, k => reM t a pos g (fun q h => reM t b q h k)
  | .alt a b, pos, g, k =>
      match reM t a pos g k with
      | some r => some r
      | none => reM t b pos g k
  | .opt a, pos, g, k =>
      match reM t a pos g k with
      | some r => some r
      | none => k pos g
  | .repC p lo hi, pos, g, k =>
      let run := countRun p (t.drop pos)
      let mx := match hi with | some h => min run h | none => run
      if lo ≤ mx then tryCounts k g pos lo mx else none
  | .grp i a, pos, g, k =>
      reM t a pos g (fun q h => k q (setCap i (sliceStr t pos q) h))
  | .look neg a, pos, g, k =>
      match reM t a pos g (fun q h => some (q, h)) with
      | some _ => if neg then none else k pos g
      | none => if neg then k pos g else none
  | .wordB, pos, g, k =>
      let l : Bool :=
        match pos, t.drop (pos - 1) with
        | 0, _ => false
        | _ + 1, c :: _ => isWordCh c
        | _ + 1, [] => false
      let r : Bool := match t.drop pos with | c :: _ => isWordCh c | [] => false
      if l != r then k pos g else none
  | .eos, pos, g, k =>
      if pos = t.length ∨ (pos + 1 = t.length ∧ (t.drop pos).head? = some 10) then
        k pos g
      else none

/-- Try a full match of `re` anchored at `pos`. -/
def reTry (re : RE) (t : Str) (pos : Nat) : MRes :=
  reM t re pos [] (fun q g => some (q, g))

/-- `re.search` worker: scan start positions left to right. -/
def searchA (re : RE) (t : Str) : Nat → Nat → Option (Nat × Nat × Caps)
  | _, 0 => none
  | pos, fuel + 1 =>
      match reTry re t pos with
      | some (e, g) => some (pos, e, g)
      | none => searchA re t (pos + 1) fuel

/-- `re.search`: leftmost match (start, end, captures), if any. -/
def reSearch (re : RE) (t : Str) : Option (Nat × Nat × Caps) :=
  searchA re t 0 (t.length + 1)

/-- The values of groups `1..ng` of one match. -/
def capsOut (ng : Nat) (g : Caps) : List Str :=
  (List.range ng).map (fun i => getCap (i + 1) g)

/-- `re.findall` worker: non-overlapping leftmost matches. -/
def findallA (re : RE) (t : Str) (ng : Nat) : Nat → Nat → List (List Str)
  | _, 0 => []
  | pos, fuel + 1 =>
      if t.length < pos then []
      else
        match reTry re t pos with
        | some (e, g) => capsOut ng g :: findallA re t ng (max e (pos + 1)) fuel
        | none => findallA re t ng (pos + 1) fuel

/-- `re.findall` for a pattern with `ng` capturing groups: each match
contributes the list of its group values. -/
def reFindall (re : RE) (ng : Nat) (t : Str) : List (List Str) :=
  findallA re t ng 0 (t.length + 1)

/-- `re.sub` worker. -/
def subA (re : RE) (repl : Str) (t : Str) : Nat → Nat → Str
  | pos, 0 => t.drop pos
  | pos, fuel + 1 =>
      if t.length ≤ pos then []
      else
        match reTry re t pos with
        | some (e, _) =>
            if pos < e then repl ++ subA re repl t e fuel
            else
              match t.drop pos with
              | c :: _ => c :: subA re repl t (pos + 1) fuel
              | [] => []
        | none =>
            match t.drop pos with
            | c :: _ => c :: subA re repl t (pos + 1) fuel
            | [] => []

/-- `re.sub` with a plain replacement string. -/
def reSub (re : RE) (repl : Str) (t : Str) : Str :=
  subA re repl t 0 (t.length + 1)

/-- Single literal character. -/
def litc (c : Nat) : RE := .cls (fun x => x = c)

/-- Case-insensitive literal character. -/
def litcCI (c : Nat) : RE := .cls (fun x => asciiLower x = asciiLower c)

/-- Literal string. -/
def litS : Str → RE
  | [] => .eps
  | c :: r => .cat (litc c) (litS r)

/-- Case-insensitive literal string. -/
def litCI : Str → RE
  | [] => .eps
  | c :: r => .cat (litcCI c) (litCI r)

/-- Sequence of regexes. -/
def reSeq : List RE → RE
  | [] => .eps
  | [a] => a
  | a :: b :: r => .cat a (reSeq (b :: r))

/-- Three-way alternation. -/
def alt3 (a b c : RE) : RE := .alt a (.alt b c)

/-! ### Validation sets and field validator (views.py 206-274)

Non-ASCII strings from the source are written as explicit codepoint
lists (the source file contains them as the Hangul codepoints shown
here, an artifact of its encoding). -/

/-- The source's `'espa침a'` (codepoints as they appear in the file). -/
def sEspanya : Str := [101, 115, 112, 97, 0xCE68, 97]

/-- The source's Hangul-encoded Greek nationality token in the
`Nationality` allowed set. -/
def sGreekNatToken : Str := [0xD4A7, 0xD4AD, 0xD4AD, 0xD4A9, 0xD4AF, 0xD4AB, 0xD4AC, 0xD4A9]

/-- `create_validation_sets` (views.py 206). -/
structure ValidationSets where
  invalid_surnames : List Str
  invalid_names : List Str
  valid_spanish_names : List Str
  valid_greek_names : List Str
  valid_spanish_surnames : List Str
  valid_greek_surnames : List Str

/-- `create_validation_sets()` (views.py 206-237). -/
def create_validation_sets : ValidationSets where
  invalid_surnames :=
    [strOf "nationality", strOf "nacionalidad", strOf "hellenic", strOf "esp", sEspanya,
     strOf "sex", strOf "sexo", strOf "male", strOf "female", strOf "date", strOf "birth",
     strOf "passport", strOf "document", strOf "numero", strOf "valid", strOf "height",
     strOf "place", strOf "issue", strOf "expiry", strOf "authority"]
  invalid_names :=
    [strOf "nationality", strOf "nacionalidad", strOf "hellenic", strOf "esp", sEspanya,
     strOf "sex", strOf "sexo", strOf "male", strOf "female", strOf "surname",
     strOf "apellido", strOf "document", strOf "passport"]
  valid_spanish_names :=
    [strOf "alba", strOf "alicia", [109, 97, 114, 0xCE64, 97], strOf "carmen", strOf "ana",
     strOf "isabel", strOf "pilar", strOf "carlos", [106, 111, 115, 0xCE60], strOf "antonio",
     strOf "miguel", strOf "juan", strOf "david", strOf "daniel",
     [97, 100, 114, 105, 0xCE58, 110], strOf "alejandro", [0xCE58, 108, 118, 97, 114, 111],
     strOf "pablo", strOf "manuel", strOf "sergio", strOf "javier"]
  valid_greek_names :=
    [strOf "dimitris", strOf "vasiliki", strOf "konstantinos", strOf "ioannis",
     strOf "george", strOf "andreas", strOf "michael", strOf "alexis", strOf "maria",
     strOf "anna", strOf "sofia", strOf "elena", strOf "christina", strOf "theodoros",
     strOf "petros", strOf "nikos", strOf "yannis", strOf "kostas", strOf "elektra"]
  valid_spanish_surnames :=
    [strOf "miranda", strOf "serrano", strOf "garcia", [108, 0xCE69, 112, 101, 122],
     [109, 97, 114, 116, 0xCE64, 110, 101, 122], [103, 111, 110, 122, 0xCE58, 108, 101, 122],
     [114, 111, 100, 114, 0xCE64, 103, 117, 101, 122],
     [102, 101, 114, 110, 0xCE58, 110, 100, 101, 122], strOf "torres", strOf "ruiz",
     strOf "moreno", strOf "molina", [106, 105, 109, 0xCE60, 110, 101, 122],
     [109, 97, 114, 116, 0xCE64, 110], [115, 0xCE58, 110, 99, 104, 101, 122],
     [112, 0xCE60, 114, 101, 122], [103, 0xCE69, 109, 101, 122], strOf "nati"]
  valid_greek_surnames :=
    [strOf "nikolaidis", strOf "konstantopoulos", strOf "anastasiou", strOf "papadopoulos",
     strOf "papantoniou", strOf "papanastasiou", strOf "papadoulis", strOf "dimitriou"]

/-- Character of the validator's garbage class
`[^a-z치칠칤칩칰침풤-픨풟-픭\s]` (views.py 270): true when the character is
OUTSIDE the allowed letter/diacritic/whitespace set. -/
def isInvalidValueCh (c : Nat) : Bool :=
  !(isLowerAZ c ||
    (c = 0xCE58 || c = 0xCE60 || c = 0xCE64 || c = 0xCE69 || c = 0xCE70 || c = 0xCE68) ||
    (0xD4A4 ≤ c && c ≤ 0xD528) || (0xD49F ≤ c && c ≤ 0xD52D) ||
    isSpaceCh c)

/-- Fields exempted from the garbage-character check (views.py 271). -/
def freeFormFields : List Str :=
  [strOf "DNI Number", strOf "Passport Number", strOf "ID Number", strOf "Date of Birth",
   strOf "Issue Date", strOf "Expiry Date", strOf "Valid Until", strOf "Height"]

/-- `is_valid_field_value(field_name, value, validation_sets)`
(views.py 239-274).  The source's early `return False` branches are
folded into one conjunction: the function returns `True` exactly when no
rejection branch fires. -/
def is_valid_field_value (field_name value : Str) (vs : ValidationSets) : Bool :=
  if value = [] || (stripStr value).length < 2 then false
  else
    let value_lower := stripStr (lowerStr value)
    let fieldOk : Bool :=
      if field_name = strOf "First Surname" || field_name = strOf "Second Surname" ||
         field_name = strOf "Surname" then
        !(vs.invalid_surnames.contains value_lower) &&
        !(value_lower.length < 3 || 25 < value_lower.length)
      else if field_name = strOf "Name" then
        !(vs.invalid_names.contains value_lower) &&
        !(value_lower.length < 2 || 20 < value_lower.length)
      else if field_name = strOf "Gender" then
        [strOf "m", strOf "f", strOf "male", strOf "female"].contains value_lower
      else if field_name = strOf "Nationality" then
        [strOf "esp", sEspanya, strOf "hellenic", sGreekNatToken, strOf "greek"].contains
          value_lower
      else true
    let charOk : Bool :=
      !(value_lower.any isInvalidValueCh) || freeFormFields.contains field_name
    fieldOk && charOk

/-- Shorthand: the validator applied with the static rule tables, as
every call site in the source does. -/
def isValidFV (field_name value : Str) : Bool :=
  is_valid_field_value field_name value create_validation_sets

/-! ### Document type classifier (views.py 427-452) -/

/-- `spanish_keywords` (views.py 435). -/
def spanish_keywords : List Str :=
  [sEspanya, strOf "dni", strOf "esp", strOf "primer apellido", strOf "segundo apellido",
   strOf "nacionalidad", [118, 0xCE58, 108, 105, 100, 111, 32, 104, 97, 115, 116, 97]]

/-- `greek_keywords` (views.py 441). -/
def greek_keywords : List Str :=
  [strOf "hellas", strOf "hellenic", strOf "passport", strOf "greece", strOf "grc",
   strOf "nationality"]

/-- `\d{8}[A-Z]` (views.py 447); searched WITHOUT `re.IGNORECASE`. -/
def dniShapeRE : RE := .cat (.repC isDigitCh 8 (some 8)) (.cls isUpperAZ)

/-- `[A-Z]{1,3}\d{6,8}` (views.py 449); searched WITHOUT `re.IGNORECASE`. -/
def passShapeRE : RE := .cat (.repC isUpperAZ 1 (some 3)) (.repC isDigitCh 6 (some 8))

/-- Keyword loop: `+= 2` per keyword contained in the lowered text. -/
def keywordScore (kws : List Str) (text_lower : Str) : Nat :=
  kws.foldl (fun acc kw => if containsSub kw text_lower then acc + 2 else acc) 0

/-- Whether the Spanish DNI shape bonus fires on the lowered text. -/
def spanishShapeHit (text : Str) : Bool := (reSearch dniShapeRE (lowerStr text)).isSome

/-- Whether the passport shape bonus fires on the lowered text. -/
def greekShapeHit (text : Str) : Bool := (reSearch passShapeRE (lowerStr text)).isSome

/-- `spanish_score` at the end of `intelligent_document_detection`. -/
def spanishScoreOf (text : Str) : Nat :=
  keywordScore spanish_keywords (lowerStr text) + (if spanishShapeHit text then 3 else 0)

/-- `greek_score` at the end of `intelligent_document_detection`. -/
def greekScoreOf (text : Str) : Nat :=
  keywordScore greek_keywords (lowerStr text) + (if greekShapeHit text then 3 else 0)

/-- `intelligent_document_detection(text)` (views.py 427-452). -/
def intelligent_document_detection (text : Str) : Str :=
  if spanishScoreOf text > greekScoreOf text then strOf "spanish_dni"
  else strOf "greek_passport"

/-! ### Text normalizer `ultimate_preprocessing` (views.py 129-204) -/

/-- `[:\s]*`. -/
def colS : RE := .repC (fun c => c = 58 || isSpaceCh c) 0 none

/-- `\s*`. -/
def s0RE : RE := .repC isSpaceCh 0 none

/-- `\s+`. -/
def s1RE : RE := .repC isSpaceCh 1 none

/-- `\.?`. -/
def optDot : RE := .repC (fun c => c = 46) 0 (some 1)

/-- Keep-condition for one line of the duplicate-line loop
(views.py 140-147): the stripped line is non-empty, longer than one
character, not seen verbatim, and not a substring of an already-kept
line more than 1.2 times as long (`5·len(existing) > 6·len(line)`). -/
def keepStep (kept : List Str) (line : Str) : Bool :=
  let l := stripStr line
  decide (l ≠ []) && decide (1 < l.length) && !(kept.contains l) &&
    !(kept.any (fun e => decide (6 * l.length < 5 * e.length) && containsSub l e))

/-- The duplicate-line loop (views.py 139-147), accumulating kept lines. -/
def dedupA (kept : List Str) : List Str → List Str
  | [] => kept
  | line :: rest =>
      if keepStep kept line then dedupA (kept ++ [stripStr line]) rest
      else dedupA kept rest

/-- Duplicate-line removal over the split lines. -/
def dedupLines (lines : List Str) : List Str := dedupA [] lines

/-- `field_labels_to_remove` (views.py 151-170), each applied with
`re.sub(pattern, ' ', text, flags=re.IGNORECASE)` in this order. -/
def field_labels_to_remove : List RE :=
  [reSeq [.wordB, litCI (strOf "primer"), s0RE, litCI (strOf "apellido"), .wordB, colS],
   reSeq [.wordB, litCI (strOf "segundo"), s0RE, litCI (strOf "apellido"), .wordB, colS],
   reSeq [.wordB, litCI (strOf "nombre"), .wordB, colS],
   reSeq [.wordB, litCI (strOf "nacionalidad"), .wordB, colS],
   reSeq [.wordB, litCI (strOf "sexo"), .wordB, colS],
   reSeq [.wordB, litCI (strOf "fecha"), s0RE, litCI (strOf "de"), s0RE,
          litCI (strOf "nacimiento"), .wordB, colS],
   reSeq [.wordB, litCI [118, 0xCE58, 108, 105, 100, 111], s0RE, litCI (strOf "hasta"),
          .wordB, colS],
   reSeq [.wordB, litCI (strOf "idesp"), .wordB, colS],
   reSeq [.wordB, litCI (strOf "surname"), .wordB, colS],
   reSeq [.wordB, litCI (strOf "name"), .wordB, colS],
   reSeq [.wordB, litCI (strOf "nationality"), .wordB, colS],
   reSeq [.wordB, litCI (strOf "sex"), .wordB, colS],
   reSeq [.wordB, litCI (strOf "date"), s0RE, litCI (strOf "of"), s0RE,
          litCI (strOf "birth"), .wordB, colS],
   reSeq [.wordB, litCI (strOf "place"), s0RE, litCI (strOf "of"), s0RE,
          litCI (strOf "birth"), .wordB, colS],
   reSeq [.wordB, litCI (strOf "passport"), s0RE, litCI (strOf "no"), .wordB, colS],
   reSeq [.wordB, litCI (strOf "iss"), optDot, s0RE, litCI (strOf "date"), .wordB, colS],
   reSeq [.wordB, litCI (strOf "expiry"), .wordB, colS],
   reSeq [.wordB, litCI (strOf "height"), .wordB, colS]]

/-- Word-bounded case-insensitive literal `\bword\b`. -/
def wbCI (s : Str) : RE := reSeq [.wordB, litCI s, .wordB]

/-- `corrections` (views.py 176-197): ordered (pattern, replacement)
table, each applied with `re.sub(..., flags=re.IGNORECASE)`. -/
def corrections : List (RE × Str) :=
  [(wbCI (strOf "blond"), strOf "orestiada"),
   (wbCI (strOf "slow"), strOf "orestiada"),
   (wbCI (strOf "salonika"), strOf "thessaloniki"),
   (wbCI (strOf "kozanh"), strOf "kozani"),
   (wbCI (strOf "veroia"), strOf "veroia"),
   (wbCI (strOf "giannitsa"), strOf "giannitsa"),
   (wbCI (strOf "komotini"), strOf "komotini"),
   (wbCI (strOf "haektpa"), strOf "elektra"),
   (reSeq [.wordB, litCI (strOf "passport"), .wordB,
           .look true (reSeq [s1RE, litCI (strOf "no")])], []),
   (wbCI (strOf "pasaport"), []),
   (wbCI (strOf "nicolaidis"), strOf "nikolaidis"),
   (wbCI (strOf "papadoulis"), strOf "papadoulis"),
   (wbCI (strOf "vasiliki"), strOf "vasiliki"),
   (wbCI (strOf "dimitris"), strOf "dimitris"),
   (wbCI (strOf "hellenic"), strOf "hellenic"),
   (wbCI (strOf "helenic"), strOf "hellenic"),
   (wbCI (strOf "espana"), sEspanya),
   (wbCI (strOf "nacionalidad"), []),
   (wbCI (strOf "valido"), [118, 0xCE58, 108, 105, 100, 111]),
   (wbCI (strOf "miranda"), strOf "miranda"),
   (wbCI (strOf "serrano"), strOf "serrano"),
   (wbCI (strOf "torres"), strOf "torres"),
   (wbCI (strOf "benitez"), strOf "benitez"),
   (wbCI (strOf "moreno"), strOf "moreno"),
   (wbCI (strOf "molina"), strOf "molina"),
   (wbCI (strOf "nati"), strOf "nati"),
   (wbCI (strOf "alicia"), strOf "alicia"),
   (wbCI (strOf "alba"), strOf "alba"),
   (wbCI (strOf "generated"), []),
   (wbCI (strOf "photos"), []),
   (wbCI (strOf "fake"), []),
   (wbCI (strOf "v3"), [])]

/-- `ultimate_preprocessing(raw_ocr_text)` (views.py 129-204). -/
def ultimate_preprocessing (raw_ocr_text : Str) : Str :=
  if raw_ocr_text = [] then []
  else
    let text := lowerStr raw_ocr_text
    let text := List.intercalate [10] (dedupLines (List.splitOn 10 text))
    let text := field_labels_to_remove.foldl (fun t p => reSub p [32] t) text
    let text := corrections.foldl (fun t pr => reSub pr.1 pr.2 t) text
    stripStr (reSub s1RE [32] text)

/-! ### Field extraction (views.py 276-425) -/

/-- Left-biased alternation of a nonempty list. -/
def altL : List RE → RE
  | [] => .eps
  | [a] => a
  | a :: b :: r => .alt a (altL (b :: r))

/-- Counted class repetition shorthand. -/
def rc (p : Nat → Bool) (lo : Nat) (hi : Option Nat) : RE := .repC p lo hi

/-- The Spanish uppercase class `[A-Z츼칄칈칍칔칌]` under `re.IGNORECASE`. -/
def spUA (c : Nat) : Bool :=
  isAsciiLetterCh c ||
    (c = 0xCE3C || c = 0xCE44 || c = 0xCE48 || c = 0xCE4D || c = 0xCE54 || c = 0xCE4C)

/-- `[A-Z]` under `re.IGNORECASE`. -/
def gaCI (c : Nat) : Bool := isAsciiLetterCh c

/-- `[MF]` under `re.IGNORECASE`. -/
def mfCI (c : Nat) : Bool := c = 77 || c = 70 || c = 109 || c = 102

/-- `[^a-z]`. -/
def nlaz (c : Nat) : Bool := !(isLowerAZ c)

/-- `[^0-9]`. -/
def ndig (c : Nat) : Bool := !(isDigitCh c)

/-- `.` (any character but newline). -/
def dotCh (c : Nat) : Bool := c ≠ 10

/-- `[A-Z\.\s\-\/]` under `re.IGNORECASE`. -/
def iacCI (c : Nat) : Bool :=
  isAsciiLetterCh c || c = 46 || c = 45 || c = 47 || isSpaceCh c

/-- `[A-Z\.\s\-\/]` WITHOUT `re.IGNORECASE` (cleanup, views.py 486). -/
def iacCS (c : Nat) : Bool :=
  isUpperAZ c || c = 46 || c = 45 || c = 47 || isSpaceCh c

/-- `\d{2}\s*\d{2}\s*\d{4}` (Spanish date shape). -/
def dmySp : RE :=
  reSeq [rc isDigitCh 2 (some 2), s0RE, rc isDigitCh 2 (some 2), s0RE,
         rc isDigitCh 4 (some 4)]

/-- `\d{1,2}\s+\w{3}\s+\d{2,4}` (Greek date shape). -/
def dmyGr : RE :=
  reSeq [rc isDigitCh 1 (some 2), s1RE, rc isWordCh 3 (some 3), s1RE,
         rc isDigitCh 2 (some 4)]

/-- `\d{1,2}\s+sep\s+\d{2,4}`. -/
def dmySep : RE :=
  reSeq [rc isDigitCh 1 (some 2), s1RE, litCI (strOf "sep"), s1RE, rc isDigitCh 2 (some 4)]

/-- `[A-Z]{3}\d{6,8}` under IGNORECASE (Spanish ID number shape). -/
def idnumSp : RE := reSeq [rc gaCI 3 (some 3), rc isDigitCh 6 (some 8)]

/-- `\d{8}[A-Z]` under IGNORECASE (Spanish DNI shape in extraction). -/
def dni8CI : RE := reSeq [rc isDigitCh 8 (some 8), .cls gaCI]

/-- `spanish_patterns` (views.py 282-323): field, then one
(group-count, pattern) pair per regex, in source order. -/
def spanish_patterns : List (Str × List (Nat × RE)) :=
  [(strOf "First Surname",
    [(1, reSeq [.opt (reSeq [litCI (strOf "primer"), s0RE, litCI (strOf "apellido"), colS]),
                .grp 1 (rc spUA 3 (some 20)),
                alt3 (reSeq [s1RE, litCI (strOf "segundo")])
                     (reSeq [s1RE, rc spUA 3 (some 20), s1RE, rc spUA 2 (some 15)])
                     (reSeq [s1RE, dni8CI])]),
     (2, reSeq [.grp 1 (rc spUA 3 (some 20)), s1RE, .grp 2 (rc spUA 3 (some 20)),
                .opt (reSeq [s1RE, rc spUA 2 (some 15)])]),
     (1, reSeq [litCI (strOf "documento"), rc nlaz 0 none, .grp 1 (rc spUA 3 (some 20))]),
     (1, reSeq [litCI sEspanya, rc nlaz 0 none, .grp 1 (rc spUA 3 (some 20))])]),
   (strOf "Second Surname",
    [(1, reSeq [.opt (reSeq [litCI (strOf "segundo"), s0RE, litCI (strOf "apellido"), colS]),
                .grp 1 (rc spUA 3 (some 20)),
                .alt (reSeq [s1RE, litCI (strOf "nombre")])
                     (reSeq [s1RE, rc spUA 2 (some 15), s1RE, .cls mfCI])]),
     (1, reSeq [rc spUA 3 (some 20), s1RE, .grp 1 (rc spUA 3 (some 20)),
                .opt (reSeq [s1RE, rc spUA 2 (some 15)])])]),
   (strOf "Name",
    [(1, reSeq [.opt (reSeq [litCI (strOf "nombre"), colS]),
                .grp 1 (rc spUA 2 (some 15)),
                alt3 (reSeq [s1RE, .cls mfCI]) (reSeq [s1RE, litCI (strOf "esp")])
                     (reSeq [s1RE, rc isDigitCh 2 (some 2), s1RE, rc isDigitCh 2 (some 2),
                             s1RE, rc isDigitCh 4 (some 4)])]),
     (1, reSeq [rc spUA 3 (some 20), s1RE, rc spUA 3 (some 20), s1RE,
                .grp 1 (rc spUA 2 (some 15))]),
     (1, reSeq [litCI (strOf "segundo"), s0RE, litCI (strOf "apellido"), rc nlaz 0 none,
                rc spUA 1 none, rc nlaz 0 none, .grp 1 (rc spUA 2 (some 15))])]),
   (strOf "DNI Number",
    [(1, reSeq [.grp 1 dni8CI, .wordB]),
     (1, reSeq [litCI (strOf "dni"), rc ndig 0 none, .grp 1 dni8CI])]),
   (strOf "Gender",
    [(1, reSeq [.opt (reSeq [litCI (strOf "sexo"), colS]), .grp 1 (.cls mfCI),
                .alt (reSeq [s1RE, litCI (strOf "esp")])
                     (reSeq [s1RE, rc isDigitCh 2 (some 2)])]),
     (1, reSeq [.grp 1 (.cls mfCI), s0RE, litCI (strOf "esp"), s0RE,
                rc isDigitCh 2 (some 2)]),
     (1, reSeq [litCI (strOf "nombre"), rc nlaz 0 none, rc spUA 1 none, rc nlaz 0 none,
                .grp 1 (.cls mfCI)])]),
   (strOf "Nationality",
    [(1, reSeq [.opt (reSeq [litCI (strOf "nacionalidad"), colS]),
                .grp 1 (litCI (strOf "esp")),
                .alt (reSeq [s1RE, litCI (strOf "fecha")])
                     (reSeq [s1RE, rc isDigitCh 2 (some 2)])]),
     (2, reSeq [.grp 1 (.cls mfCI), s0RE, .grp 2 (litCI (strOf "esp")), s0RE,
                rc isDigitCh 2 (some 2)])]),
   (strOf "Date of Birth",
    [(1, reSeq [.opt (reSeq [litCI (strOf "fecha"), s0RE, litCI (strOf "de"), s0RE,
                             litCI (strOf "nacimiento"), colS]), .grp 1 dmySp]),
     (1, reSeq [litCI (strOf "esp"), s0RE, .grp 1 dmySp])]),
   (strOf "ID Number",
    [(1, reSeq [.opt (reSeq [litCI (strOf "idesp"), colS]), .grp 1 idnumSp]),
     (2, reSeq [.grp 1 dmySp, s0RE, .grp 2 idnumSp])]),
   (strOf "Valid Until",
    [(1, reSeq [.opt (reSeq [litCI [118, 0xCE58, 108, 105, 100, 111], s0RE,
                             litCI (strOf "hasta"), colS]),
                .grp 1 dmySp, .look true (reSeq [s0RE, litCI (strOf "idesp")])]),
     (1, reSeq [idnumSp, s0RE, .grp 1 dmySp])])]

/-- `greek_patterns` (views.py 353-404). -/
def greek_patterns : List (Str × List (Nat × RE)) :=
  [(strOf "Surname",
    [(1, reSeq [.opt (reSeq [litCI (strOf "surname"), colS]), .grp 1 (rc gaCI 4 (some 25)),
                s1RE, rc gaCI 3 (some 15), s1RE, litCI (strOf "hellenic")]),
     (1, reSeq [.grp 1 (rc gaCI 4 (some 25)), s1RE, rc gaCI 3 (some 15), s1RE,
                litCI (strOf "hellenic")]),
     (1, reSeq [litCI (strOf "hellenic"), s1RE, .grp 1 (rc gaCI 4 (some 25))]),
     (1, reSeq [.grp 1 (altL [litCI (strOf "nikolaidis"), litCI (strOf "konstantopoulos"),
                              litCI (strOf "papadoulis"), litCI (strOf "papantoniou"),
                              litCI (strOf "anastasiou")]), .wordB])]),
   (strOf "Name",
    [(1, reSeq [.opt (reSeq [litCI (strOf "name"), colS]), .grp 1 (rc gaCI 3 (some 15)),
                alt3 (reSeq [s1RE, litCI (strOf "hellenic")]) (reSeq [s1RE, .cls mfCI])
                     (reSeq [s1RE, rc isDigitCh 2 (some 2), s1RE, rc isWordCh 3 (some 3)])]),
     (1, reSeq [.grp 1 (rc gaCI 3 (some 15)), s1RE, litCI (strOf "hellenic")]),
     (1, reSeq [rc gaCI 4 (some 25), s1RE, .grp 1 (rc gaCI 3 (some 15)), s1RE,
                litCI (strOf "hellenic")]),
     (1, reSeq [.grp 1 (altL [litCI (strOf "dimitris"), litCI (strOf "vasiliki"),
                              litCI (strOf "konstantinos"), litCI (strOf "elektra"),
                              litCI (strOf "maria"), litCI (strOf "anna"),
                              litCI (strOf "sofia")]), .wordB]),
     (1, .grp 1 (litCI (strOf "haektpa")))]),
   (strOf "Nationality",
    [(1, reSeq [.grp 1 (litCI (strOf "hellenic")), .wordB]),
     (1, reSeq [litCI (strOf "nationality"), colS, .grp 1 (litCI (strOf "hellenic"))])]),
   (strOf "Gender",
    [(1, reSeq [.opt (reSeq [litCI (strOf "sex"), colS]), .grp 1 (.cls mfCI),
                .alt (reSeq [s1RE, rc isDigitCh 2 (some 2), s1RE, rc isWordCh 3 (some 3)])
                     (reSeq [s1RE, rc gaCI 4 none])]),
     (1, reSeq [.grp 1 (.cls mfCI), s1RE, rc isDigitCh 2 (some 2), s1RE,
                rc isWordCh 3 (some 3), s1RE, rc isDigitCh 2 (some 4)]),
     (1, reSeq [litCI (strOf "hellenic"), s1RE, rc gaCI 1 none, s1RE, .grp 1 (.cls mfCI)])]),
   (strOf "Date of Birth",
    [(1, reSeq [.opt (reSeq [litCI (strOf "date"), s0RE, litCI (strOf "of"), s0RE,
                             litCI (strOf "birth"), colS]), .grp 1 dmyGr]),
     (2, reSeq [.grp 1 (.cls mfCI), s1RE, .grp 2 dmyGr])]),
   (strOf "Place of Birth",
    [(1, reSeq [.opt (reSeq [litCI (strOf "place"), s0RE, litCI (strOf "of"), s0RE,
                             litCI (strOf "birth"), colS]), .grp 1 (rc gaCI 4 (some 20)),
                s1RE, rc gaCI 1 (some 3), rc isDigitCh 6 (some 8)]),
     (1, reSeq [.grp 1 (altL [litCI (strOf "komotini"), litCI (strOf "veroia"),
                              litCI (strOf "giannitsa"), litCI (strOf "kozani"),
                              litCI (strOf "thessaloniki"), litCI (strOf "athens"),
                              litCI (strOf "sparta")]), .wordB])]),
   (strOf "Passport Number",
    [(1, reSeq [.opt (reSeq [litCI (strOf "passport"), s0RE, litCI (strOf "no"), colS]),
                .grp 1 (reSeq [rc gaCI 1 (some 3), rc isDigitCh 6 (some 8)]), .wordB]),
     (1, reSeq [.grp 1 (altL [reSeq [litCI (strOf "vu"), rc isDigitCh 7 (some 7)],
                              reSeq [litCI (strOf "m"), rc isDigitCh 7 (some 7)],
                              reSeq [litCI (strOf "ee"), rc isDigitCh 7 (some 7)],
                              reSeq [litCI (strOf "jh"), rc isDigitCh 7 (some 7)]]),
                .wordB])]),
   (strOf "Issue Date",
    [(1, reSeq [.opt (reSeq [litCI (strOf "iss"), optDot, s0RE, litCI (strOf "date"), colS]),
                .grp 1 dmyGr, .look false (reSeq [rc dotCh 0 none, litCI (strOf "expiry")])]),
     (1, reSeq [.grp 1 dmySep, .look false (reSeq [rc dotCh 0 none, dmySep])])]),
   (strOf "Expiry Date",
    [(1, reSeq [.opt (reSeq [litCI (strOf "expiry"), colS]), .grp 1 dmyGr,
                .look true (reSeq [s0RE, litCI (strOf "iss")])]),
     (1, reSeq [.grp 1 dmySep, .eos])]),
   (strOf "Height",
    [(1, reSeq [.opt (reSeq [litCI (strOf "height"), colS]),
                .grp 1 (reSeq [rc isDigitCh 1 none, litc 46, rc isDigitCh 2 (some 2)]),
                .wordB]),
     (1, reSeq [.grp 1 (.alt (reSeq [litc 49, litc 46, rc isDigitCh 2 (some 2)])
                             (reSeq [litc 50, litc 46, rc isDigitCh 2 (some 2)])),
                .wordB])]),
   (strOf "Issuing Authority",
    [(1, reSeq [.opt (reSeq [litCI (strOf "iss"), optDot, s0RE, litCI (strOf "office"),
                             colS]), .grp 1 (rc iacCI 8 (some 30))]),
     (1, .grp 1 (reSeq [litCI (strOf "place"), s1RE, litCI (strOf "of"), s1RE,
                        litCI (strOf "birth"), rc nlaz 1 none, rc iacCI 8 (some 30)]))])]

/-- Field-to-value association list (the extraction dicts, in
insertion order). -/
abbrev FMap := List (Str × Str)

/-- One `findall` match processed as in the source loop body
(views.py 329-338): tuple matches take the first truthy valid group,
scalar matches validate the single group. -/
def pickFromMatch (field : Str) (tuplep : Bool) (m : List Str) : Option Str :=
  if tuplep then
    m.find? (fun v => decide (v ≠ []) && isValidFV field v)
  else
    match m.head? with
    | some v => if isValidFV field v then some v else none
    | none => none

/-- First accepted value over a pattern's matches. -/
def firstAccepted (field : Str) (tuplep : Bool) : List (List Str) → Option Str
  | [] => none
  | m :: rest =>
      match pickFromMatch field tuplep m with
      | some v => some v
      | none => firstAccepted field tuplep rest

/-- Try the ordered patterns for one field; first accepted value wins. -/
def tryPatterns (t field : Str) : List (Nat × RE) → Option Str
  | [] => none
  | (ng, re) :: rest =>
      match firstAccepted field (2 ≤ ng) (reFindall re ng t) with
      | some v => some v
      | none => tryPatterns t field rest

/-- Extraction loop shared by both extractors (views.py 326-343 and
407-423): accepted values are stored as `value.upper().strip()`. -/
def runExtraction (pats : List (Str × List (Nat × RE))) (t : Str) : FMap :=
  pats.foldl (fun acc fp =>
    match tryPatterns t fp.1 fp.2 with
    | some v => acc ++ [(fp.1, stripStr (upperStr v))]
    | none => acc) []

/-- `ultimate_spanish_dni_extraction(text)` (views.py 276-345). -/
def ultimate_spanish_dni_extraction (text : Str) : FMap :=
  runExtraction spanish_patterns text

/-- `ultimate_greek_passport_extraction(text)` (views.py 347-425). -/
def ultimate_greek_passport_extraction (text : Str) : FMap :=
  runExtraction greek_patterns text

/-! ### Conflict resolution `intelligent_validation_cleanup`
(views.py 454-492) -/

/-- Dictionary lookup. -/
def lookupA : FMap → Str → Option Str
  | [], _ => none
  | (k, v) :: r, key => if k = key then some v else lookupA r key

/-- Python `del d[key]`. -/
def eraseKey (m : FMap) (key : Str) : FMap := m.filter (fun e => e.1 ≠ key)

/-- Python `d[key] = v` for a present key (in-place, order preserved). -/
def setKey (m : FMap) (key v : Str) : FMap :=
  m.map (fun e => if e.1 = key then (key, v) else e)

/-- Cleanup step 1 (views.py 459-462): re-validate every entry. -/
def vstep1 (extracted : FMap) : FMap :=
  extracted.filter (fun fv => isValidFV fv.1 fv.2)

/-- Cleanup step 2 (views.py 465-467): drop `Second Surname` when it
equals `First Surname`. -/
def vstep2 (cleaned : FMap) : FMap :=
  match lookupA cleaned (strOf "First Surname"), lookupA cleaned (strOf "Second Surname") with
  | some a, some b => if a = b then eraseKey cleaned (strOf "Second Surname") else cleaned
  | _, _ => cleaned

/-- Cleanup step 3 (views.py 469-471): drop `Name` when it equals
`Surname`. -/
def vstep3 (cleaned : FMap) : FMap :=
  match lookupA cleaned (strOf "Name"), lookupA cleaned (strOf "Surname") with
  | some a, some b => if a = b then eraseKey cleaned (strOf "Name") else cleaned
  | _, _ => cleaned

/-- Cleanup step 4 (views.py 474-479): canonicalize `Nationality`. -/
def vstep4 (cleaned : FMap) : FMap :=
  match lookupA cleaned (strOf "Nationality") with
  | some nv =>
      let nat := lowerStr nv
      if containsSub (strOf "hellenic") nat || containsSub (strOf "greek") nat then
        setKey cleaned (strOf "Nationality") (strOf "HELLENIC")
      else if containsSub (strOf "esp") nat then
        setKey cleaned (strOf "Nationality") (strOf "ESP")
      else cleaned
  | none => cleaned

/-- `r'([A-Z\.\s\-\/]{8,25})'` (views.py 486), case-sensitive. -/
def iaCleanRE : RE := .grp 1 (rc iacCS 8 (some 25))

/-- Cleanup step 5 (views.py 482-490): shorten an over-40-character
`Issuing Authority`. -/
def vstep5 (cleaned : FMap) : FMap :=
  match lookupA cleaned (strOf "Issuing Authority") with
  | some authority =>
      if 40 < authority.length then
        match reSearch iaCleanRE authority with
        | some r => setKey cleaned (strOf "Issuing Authority") (stripStr (getCap 1 r.2.2))
        | none => setKey cleaned (strOf "Issuing Authority") (authority.take 25 ++ strOf "...")
      else cleaned
  | none => cleaned

/-- `intelligent_validation_cleanup(extracted)` (views.py 454-492). -/
def intelligent_validation_cleanup (extracted : FMap) : FMap :=
  vstep5 (vstep4 (vstep3 (vstep2 (vstep1 extracted))))

/-! ### Pipeline entry points (views.py 494-549) -/

/-- The document type that selects the extraction pattern set: computed
from the PREPROCESSED text (views.py 500-503). -/
def extractionDocType (ocr_text : Str) : Str :=
  intelligent_document_detection (ultimate_preprocessing ocr_text)

/-- The document type that selects the presentation field order:
computed from the RAW translated text (views.py 524). -/
def formattingDocType (translated_text : Str) : Str :=
  intelligent_document_detection translated_text

/-- `ultimate_extract_document_fields(ocr_text)` (views.py 494-514). -/
def ultimate_extract_document_fields (ocr_text : Str) : FMap :=
  if ocr_text = [] then []
  else
    let preprocessed := ultimate_preprocessing ocr_text
    let extracted :=
      if extractionDocType ocr_text = strOf "spanish_dni" then
        ultimate_spanish_dni_extraction preprocessed
      else
        ultimate_greek_passport_extraction preprocessed
    intelligent_validation_cleanup extracted

/-- Spanish presentation order (views.py 527-528). -/
def spanishFieldOrder : List Str :=
  [strOf "First Surname", strOf "Second Surname", strOf "Name", strOf "DNI Number",
   strOf "Gender", strOf "Nationality", strOf "Date of Birth", strOf "ID Number",
   strOf "Valid Until"]

/-- Greek presentation order (views.py 530-532). -/
def greekFieldOrder : List Str :=
  [strOf "Surname", strOf "Name", strOf "Nationality", strOf "Gender",
   strOf "Date of Birth", strOf "Place of Birth", strOf "Passport Number",
   strOf "Issue Date", strOf "Expiry Date", strOf "Issuing Authority", strOf "Height"]

/-- `clean_and_format_document_fields(translated_text)`
(views.py 516-549). -/
def clean_and_format_document_fields (translated_text : Str) : List (Str × Str) :=
  if translated_text = [] || containsSub (strOf "Translation") translated_text then []
  else
    let extracted_data := ultimate_extract_document_fields translated_text
    let doc_type := formattingDocType translated_text
    let field_order :=
      if doc_type = strOf "spanish_dni" then spanishFieldOrder else greekFieldOrder
    let inOrder := field_order.foldl (fun acc f =>
      match lookupA extracted_data f with
      | some v => if v ≠ [] then acc ++ [(f ++ [58], v)] else acc
      | none => acc) []
    let formatted_fields := extracted_data.foldl (fun acc fv =>
      if !(field_order.contains fv.1) && fv.2 ≠ [] then acc ++ [(fv.1 ++ [58], fv.2)]
      else acc) inOrder
    if formatted_fields = [] then
      [(strOf "Extracted Text:",
        if 200 < translated_text.length then translated_text.take 200 ++ strOf "..."
        else translated_text)]
    else formatted_fields

/-! ### String lemmas -/

theorem asciiLower_asciiUpper (c : Nat) : asciiLower (asciiUpper c) = asciiLower c := by
  unfold asciiLower asciiUpper
  split_ifs <;> omega

theorem isSpaceCh_asciiUpper (c : Nat) : isSpaceCh (asciiUpper c) = isSpaceCh c := by
  rw [Bool.eq_iff_iff]
  simp only [isSpaceCh, asciiUpper, Bool.or_eq_true, decide_eq_true_eq]
  split_ifs <;> omega

theorem isSpaceCh_asciiLower (c : Nat) : isSpaceCh (asciiLower c) = isSpaceCh c := by
  rw [Bool.eq_iff_iff]
  simp only [isSpaceCh, asciiLower, Bool.or_eq_true, decide_eq_true_eq]
  split_ifs <;> omega

theorem dropWhile_map (f : Nat → Nat) (p : Nat → Bool) (hf : ∀ c, p (f c) = p c)
    (l : Str) : (l.map f).dropWhile p = (l.dropWhile p).map f := by
  induction l with
  | nil => rfl
  | cons c t ih =>
      simp only [List.map_cons, List.dropWhile_cons, hf c]
      split_ifs <;> simp [ih]

theorem stripStr_map (f : Nat → Nat) (hf : ∀ c, isSpaceCh (f c) = isSpaceCh c)
    (s : Str) : stripStr (s.map f) = (stripStr s).map f := by
  unfold stripStr stripFront
  rw [dropWhile_map f _ hf]
  rw [show ((s.dropWhile isSpaceCh).map f).reverse = (s.dropWhile isSpaceCh).reverse.map f by
        simp]
  rw [dropWhile_map f _ hf]
  simp

theorem lowerStr_upperStr (s : Str) : lowerStr (upperStr s) = lowerStr s := by
  unfold lowerStr upperStr
  rw [List.map_map]
  have : asciiLower ∘ asciiUpper = asciiLower := funext asciiLower_asciiUpper
  rw [this]

theorem dropWhile_dropWhile (p : Nat → Bool) (l : Str) :
    (l.dropWhile p).dropWhile p = l.dropWhile p := by
  induction l with
  | nil => rfl
  | cons c t ih =>
      simp only [List.dropWhile_cons]
      split_ifs with h
      · exact ih
      · simp [List.dropWhile_cons, h]

theorem dropWhile_suffix_ex (p : Nat → Bool) (l : Str) :
    ∃ u, u ++ l.dropWhile p = l := by
  induction l with
  | nil => exact ⟨[], rfl⟩
  | cons c t ih =>
      simp only [List.dropWhile_cons]
      split_ifs with h
      · obtain ⟨u, hu⟩ := ih
        exact ⟨c :: u, by simp [hu]⟩
      · exact ⟨[], rfl⟩

/-- The tail-stripping half of `strip`. -/
def revDrop (x : Str) : Str := (x.reverse.dropWhile isSpaceCh).reverse

theorem stripStr_eq_revDrop (s : Str) : stripStr s = revDrop (s.dropWhile isSpaceCh) := rfl

theorem revDrop_prefix_ex (x : Str) : ∃ u, revDrop x ++ u = x := by
  obtain ⟨u, hu⟩ := dropWhile_suffix_ex isSpaceCh x.reverse
  refine ⟨u.reverse, ?_⟩
  have := congrArg List.reverse hu
  simpa [revDrop] using this

theorem revDrop_revDrop (x : Str) : revDrop (revDrop x) = revDrop x := by
  unfold revDrop
  simp [dropWhile_dropWhile]

theorem dropWhile_revDrop (x : Str) (hx : x.dropWhile isSpaceCh = x) :
    (revDrop x).dropWhile isSpaceCh = revDrop x := by
  obtain ⟨u, hu⟩ := revDrop_prefix_ex x
  cases hr : revDrop x with
  | nil => rfl
  | cons c t =>
      have hx' : x = c :: (t ++ u) := by rw [← hu, hr]; simp
      have hc : isSpaceCh c = false := by
        by_contra hcon
        have hc' : isSpaceCh c = true := by
          cases h' : isSpaceCh c
          · exact absurd h' hcon
          · rfl
        rw [hx'] at hx
        simp only [List.dropWhile_cons, hc', if_true] at hx
        obtain ⟨u', hu'⟩ := dropWhile_suffix_ex isSpaceCh (t ++ u)
        rw [hx] at hu'
        have := congrArg List.length hu'
        simp [List.length_append] at this
        omega
      simp [List.dropWhile_cons, hc]

theorem stripStr_stripStr (s : Str) : stripStr (stripStr s) = stripStr s := by
  rw [stripStr_eq_revDrop, stripStr_eq_revDrop]
  rw [dropWhile_revDrop (s.dropWhile isSpaceCh) (dropWhile_dropWhile isSpaceCh s)]
  exact revDrop_revDrop _

theorem stripStr_upperStr (v : Str) : stripStr (upperStr v) = upperStr (stripStr v) :=
  stripStr_map asciiUpper isSpaceCh_asciiUpper v

theorem stripStr_lowerStr (v : Str) : stripStr (lowerStr v) = lowerStr (stripStr v) :=
  stripStr_map asciiLower isSpaceCh_asciiLower v

theorem valueLower_upper_strip (v : Str) :
    stripStr (lowerStr (stripStr (upperStr v))) = stripStr (lowerStr v) := by
  rw [stripStr_upperStr]
  rw [show lowerStr (upperStr (stripStr v)) = lowerStr (stripStr v) from
        lowerStr_upperStr (stripStr v)]
  rw [stripStr_lowerStr, stripStr_lowerStr]
  rw [show stripStr (stripStr v) = stripStr v from stripStr_stripStr v]

/-- Re-validating a stored value (`value.upper().strip()`) gives the
same verdict as validating the raw captured value. -/
theorem isValidFV_upper_strip (f v : Str) :
    isValidFV f (stripStr (upperStr v)) = isValidFV f v := by
  unfold isValidFV is_valid_field_value
  have hguard :
      (decide (stripStr (upperStr v) = []) ||
        decide ((stripStr (stripStr (upperStr v))).length < 2)) =
      (decide (v = []) || decide ((stripStr v).length < 2)) := by
    rw [Bool.eq_iff_iff]
    simp only [Bool.or_eq_true, decide_eq_true_eq]
    rw [show stripStr (stripStr (upperStr v)) = stripStr (upperStr v) from
          stripStr_stripStr _]
    rw [stripStr_upperStr]
    constructor
    · rintro (h | h)
      · have : stripStr v = [] := by
          cases hsv : stripStr v
          · rfl
          · rw [hsv] at h; simp [upperStr] at h
        right; rw [this]; simp
      · right; simpa [upperStr] using h
    · rintro (h | h)
      · right; rw [h]; simp [stripStr, stripFront, upperStr]
      · right; simpa [upperStr] using h
  rw [valueLower_upper_strip, hguard]

/-! ### The classifier's shape bonuses can never fire -/

theorem tryCounts_none (k : Nat → Caps → MRes) (g : Caps) (pos lo : Nat)
    (hk : ∀ q h, k q h = none) : ∀ n, tryCounts k g pos lo n = none := by
  intro n
  induction n with
  | zero =>
      unfold tryCounts
      split_ifs <;> simp [hk]
  | succ m ih =>
      unfold tryCounts
      split_ifs
      · rfl
      · rw [hk]
        exact ih

theorem reM_cls_none (t : Str) (p : Nat → Bool) (hp : ∀ c ∈ t, p c = false)
    (pos : Nat) (g : Caps) (k : Nat → Caps → MRes) : reM t (.cls p) pos g k = none := by
  unfold reM
  cases hd : t.drop pos with
  | nil => rfl
  | cons c r =>
      have hc : c ∈ t := List.drop_subset pos t (by rw [hd]; exact List.mem_cons_self c r)
      simp [hp c hc]

theorem reM_repC_none (t : Str) (p : Nat → Bool) (lo : Nat) (hi : Option Nat)
    (pos : Nat) (g : Caps) (k : Nat → Caps → MRes) (hk : ∀ q h, k q h = none) :
    reM t (.repC p lo hi) pos g k = none := by
  unfold reM
  simp [tryCounts_none k g pos lo hk]

theorem countRun_zero (p : Nat → Bool) (l : Str) (h : ∀ c ∈ l, p c = false) :
    countRun p l = 0 := by
  cases l with
  | nil => rfl
  | cons c t =>
      unfold countRun
      rw [h c (List.mem_cons_self c t)]
      simp

theorem reM_repC_lo_none (t : Str) (p : Nat → Bool) (lo : Nat) (hi : Option Nat)
    (pos : Nat) (g : Caps) (k : Nat → Caps → MRes) (hlo : 0 < lo)
    (hrun : countRun p (t.drop pos) = 0) :
    reM t (.repC p lo hi) pos g k = none := by
  unfold reM
  rw [hrun]
  cases hi with
  | none => simp; omega
  | some h => simp; omega

theorem reM_dniShape_none (t : Str) (h : ∀ c ∈ t, isUpperAZ c = false)
    (pos : Nat) (g : Caps) (k : Nat → Caps → MRes) :
    reM t dniShapeRE pos g k = none := by
  have hin : reM t (RE.cat (.repC isDigitCh 8 (some 8)) (.cls isUpperAZ)) pos g k =
      reM t (.repC isDigitCh 8 (some 8)) pos g (fun q h' => reM t (.cls isUpperAZ) q h' k) :=
    rfl
  rw [show dniShapeRE = RE.cat (.repC isDigitCh 8 (some 8)) (.cls isUpperAZ) from rfl, hin]
  exact reM_repC_none t _ _ _ pos g _ (fun q h' => reM_cls_none t _ h q h' k)

theorem reM_passShape_none (t : Str) (h : ∀ c ∈ t, isUpperAZ c = false)
    (pos : Nat) (g : Caps) (k : Nat → Caps → MRes) :
    reM t passShapeRE pos g k = none := by
  have hin : reM t (RE.cat (.repC isUpperAZ 1 (some 3)) (.repC isDigitCh 6 (some 8)))
        pos g k =
      reM t (.repC isUpperAZ 1 (some 3)) pos g
        (fun q h' => reM t (.repC isDigitCh 6 (some 8)) q h' k) :=
    rfl
  rw [show passShapeRE = RE.cat (.repC isUpperAZ 1 (some 3)) (.repC isDigitCh 6 (some 8))
        from rfl, hin]
  exact reM_repC_lo_none t _ _ _ pos g _ (by omega)
    (countRun_zero _ _ (fun c hc => h c (List.drop_subset pos t hc)))

theorem searchA_none (re : RE) (t : Str) (hall : ∀ pos, reTry re t pos = none) :
    ∀ fuel pos, searchA re t pos fuel = none := by
  intro fuel
  induction fuel with
  | zero => intro pos; rfl
  | succ m ih =>
      intro pos
      unfold searchA
      rw [hall pos]
      exact ih (pos + 1)

theorem lowerStr_no_upper (t : Str) : ∀ c ∈ lowerStr t, isUpperAZ c = false := by
  intro c hc
  simp only [lowerStr, List.mem_map] at hc
  obtain ⟨a, _, rfl⟩ := hc
  have hno : ¬(65 ≤ asciiLower a ∧ asciiLower a ≤ 90) := by
    unfold asciiLower
    split_ifs <;> omega
  simp only [isUpperAZ]
  rw [Bool.eq_iff_iff]
  simp only [Bool.and_eq_true, decide_eq_true_eq, Bool.false_eq_true, iff_false]
  exact hno

theorem spanishShapeHit_false (t : Str) : spanishShapeHit t = false := by
  unfold spanishShapeHit reSearch
  rw [searchA_none dniShapeRE (lowerStr t)
        (fun pos => reM_dniShape_none (lowerStr t) (lowerStr_no_upper t) pos [] _)]
  rfl

theorem greekShapeHit_false (t : Str) : greekShapeHit t = false := by
  unfold greekShapeHit reSearch
  rw [searchA_none passShapeRE (lowerStr t)
        (fun pos => reM_passShape_none (lowerStr t) (lowerStr_no_upper t) pos [] _)]
  rfl

/-! ### Dictionary lemmas for the conflict resolver -/

@[simp] theorem lookupA_nil (k : Str) : lookupA [] k = none := rfl

@[simp] theorem lookupA_cons (a b : Str) (r : FMap) (k : Str) :
    lookupA ((a, b) :: r) k = if a = k then some b else lookupA r k := rfl

@[simp] theorem eraseKey_nil (key : Str) : eraseKey [] key = [] := rfl

@[simp] theorem eraseKey_cons (a b : Str) (r : FMap) (key : Str) :
    eraseKey ((a, b) :: r) key =
      if a = key then eraseKey r key else (a, b) :: eraseKey r key := by
  simp only [eraseKey, List.filter_cons]
  split_ifs with h1 h2 h2 <;> simp_all

@[simp] theorem setKey_nil (key v : Str) : setKey [] key v = [] := rfl

@[simp] theorem setKey_cons (a b : Str) (r : FMap) (key v : Str) :
    setKey ((a, b) :: r) key v =
      (if a = key then (key, v) else (a, b)) :: setKey r key v := rfl

theorem lookupA_mem {m : FMap} {k v : Str} (h : lookupA m k = some v) : (k, v) ∈ m := by
  induction m with
  | nil => cases h
  | cons e r ih =>
      obtain ⟨a, b⟩ := e
      rw [lookupA_cons] at h
      by_cases he : a = k
      · rw [if_pos he] at h
        cases h
        rw [he]
        exact List.mem_cons_self _ _
      · rw [if_neg he] at h
        exact List.mem_cons_of_mem _ (ih h)

theorem mem_lookupA {m : FMap} (hnd : (m.map Prod.fst).Nodup) {k v : Str}
    (h : (k, v) ∈ m) : lookupA m k = some v := by
  induction m with
  | nil => cases h
  | cons e r ih =>
      obtain ⟨a, b⟩ := e
      rw [List.map_cons] at hnd
      have hnd' := List.nodup_cons.mp hnd
      rcases List.mem_cons.mp h with h1 | h1
      · cases h1
        simp
      · have hk : k ∈ r.map Prod.fst := List.mem_map.mpr ⟨(k, v), h1, rfl⟩
        have he : a ≠ k := fun hc => hnd'.1 (hc ▸ hk)
        rw [lookupA_cons, if_neg he]
        exact ih hnd'.2 h1

theorem lookupA_eraseKey_ne (m : FMap) (key k : Str) (h : k ≠ key) :
    lookupA (eraseKey m key) k = lookupA m k := by
  induction m with
  | nil => rfl
  | cons e r ih =>
      obtain ⟨a, b⟩ := e
      rw [eraseKey_cons]
      by_cases he : a = key
      · rw [if_pos he, lookupA_cons, if_neg (by rw [he]; exact fun hc => h hc.symm), ih]
      · rw [if_neg he, lookupA_cons, lookupA_cons]
        by_cases hak : a = k
        · rw [if_pos hak, if_pos hak]
        · rw [if_neg hak, if_neg hak, ih]

theorem lookupA_eraseKey_self (m : FMap) (key : Str) :
    lookupA (eraseKey m key) key = none := by
  induction m with
  | nil => rfl
  | cons e r ih =>
      obtain ⟨a, b⟩ := e
      rw [eraseKey_cons]
      by_cases he : a = key
      · rw [if_pos he]
        exact ih
      · rw [if_neg he, lookupA_cons, if_neg he]
        exact ih

theorem lookupA_setKey_ne (m : FMap) (key v k : Str) (h : k ≠ key) :
    lookupA (setKey m key v) k = lookupA m k := by
  induction m with
  | nil => rfl
  | cons e r ih =>
      obtain ⟨a, b⟩ := e
      rw [setKey_cons]
      by_cases he : a = key
      · rw [if_pos he, lookupA_cons, if_neg (fun hc => h hc.symm), lookupA_cons,
            if_neg (by rw [he]; exact fun hc => h hc.symm), ih]
      · rw [if_neg he, lookupA_cons, lookupA_cons]
        by_cases hak : a = k
        · rw [if_pos hak, if_pos hak]
        · rw [if_neg hak, if_neg hak, ih]

theorem lookupA_setKey_self (m : FMap) (key v w : Str) (h : lookupA m key = some w) :
    lookupA (setKey m key v) key = some v := by
  induction m with
  | nil => cases h
  | cons e r ih =>
      obtain ⟨a, b⟩ := e
      rw [setKey_cons]
      rw [lookupA_cons] at h
      by_cases he : a = key
      · rw [if_pos he, lookupA_cons, if_pos rfl]
      · rw [if_neg he] at h
        rw [if_neg he, lookupA_cons, if_neg he]
        exact ih h

theorem setKey_of_not_mem (m : FMap) (key v : Str) (h : key ∉ m.map Prod.fst) :
    setKey m key v = m := by
  induction m with
  | nil => rfl
  | cons e r ih =>
      obtain ⟨a, b⟩ := e
      rw [List.map_cons, List.mem_cons] at h
      push_neg at h
      rw [setKey_cons, if_neg (fun hc => h.1 hc.symm), ih h.2]

theorem setKey_self (m : FMap) (key v : Str) (hnd : (m.map Prod.fst).Nodup)
    (h : lookupA m key = some v) : setKey m key v = m := by
  induction m with
  | nil => cases h
  | cons e r ih =>
      obtain ⟨a, b⟩ := e
      rw [List.map_cons] at hnd
      have hnd' := List.nodup_cons.mp hnd
      rw [lookupA_cons] at h
      rw [setKey_cons]
      by_cases he : a = key
      · rw [if_pos he] at h ⊢
        cases h
        rw [setKey_of_not_mem r key v (he ▸ hnd'.1), he]
      · rw [if_neg he] at h ⊢
        rw [ih hnd'.2 h]

theorem map_fst_setKey (m : FMap) (key v : Str) :
    (setKey m key v).map Prod.fst = m.map Prod.fst := by
  induction m with
  | nil => rfl
  | cons e r ih =>
      obtain ⟨a, b⟩ := e
      rw [setKey_cons, List.map_cons, List.map_cons, ih]
      by_cases he : a = key
      · rw [if_pos he, he]
      · rw [if_neg he]

theorem nodup_keys_filter (m : FMap) (p : Str × Str → Bool)
    (hnd : (m.map Prod.fst).Nodup) : ((m.filter p).map Prod.fst).Nodup :=
  hnd.sublist ((List.filter_sublist m).map Prod.fst)

theorem nodup_keys_eraseKey (m : FMap) (key : Str)
    (hnd : (m.map Prod.fst).Nodup) : ((eraseKey m key).map Prod.fst).Nodup :=
  nodup_keys_filter m _ hnd

/-! ### Conflict-resolver step lemmas -/

/-- The nationality canonicalization rule of cleanup step 4
(views.py 474-479). -/
def natCanon (v : Str) : Str :=
  if containsSub (strOf "hellenic") (lowerStr v) || containsSub (strOf "greek") (lowerStr v)
  then strOf "HELLENIC"
  else if containsSub (strOf "esp") (lowerStr v) then strOf "ESP"
  else v

theorem natCanon_idem (v : Str) : natCanon (natCanon v) = natCanon v := by
  by_cases h1 : (containsSub (strOf "hellenic") (lowerStr v) ||
      containsSub (strOf "greek") (lowerStr v)) = true
  · have hv : natCanon v = strOf "HELLENIC" := by unfold natCanon; rw [if_pos h1]
    rw [hv]
    decide
  · by_cases h2 : containsSub (strOf "esp") (lowerStr v) = true
    · have hv : natCanon v = strOf "ESP" := by unfold natCanon; rw [if_neg h1, if_pos h2]
      rw [hv]
      decide
    · have hv : natCanon v = v := by unfold natCanon; rw [if_neg h1, if_neg h2]
      rw [hv, hv]

theorem isValidFV_natCanon (v : Str) (h : isValidFV (strOf "Nationality") v = true) :
    isValidFV (strOf "Nationality") (natCanon v) = true := by
  unfold natCanon
  split_ifs <;> first | decide | exact h

theorem mem_eraseKey {e : Str × Str} (m : FMap) (key : Str) (h : e ∈ eraseKey m key) :
    e ∈ m :=
  List.mem_of_mem_filter h

theorem mem_setKey {e : Str × Str} (m : FMap) (key v : Str) (h : e ∈ setKey m key v) :
    e = (key, v) ∨ e ∈ m := by
  unfold setKey at h
  rcases List.mem_map.mp h with ⟨a, ha, rfl⟩
  by_cases hk : a.1 = key
  · rw [if_pos hk]
    exact Or.inl rfl
  · rw [if_neg hk]
    exact Or.inr ha

theorem vstep2_cases (m : FMap) :
    vstep2 m = m ∨ vstep2 m = eraseKey m (strOf "Second Surname") := by
  unfold vstep2
  cases h1 : lookupA m (strOf "First Surname") with
  | none => exact Or.inl rfl
  | some a =>
      cases h2 : lookupA m (strOf "Second Surname") with
      | none => exact Or.inl rfl
      | some b =>
          by_cases hab : a = b
          · dsimp only
            rw [if_pos hab]
            exact Or.inr rfl
          · dsimp only
            rw [if_neg hab]
            exact Or.inl rfl

theorem vstep3_cases (m : FMap) :
    vstep3 m = m ∨ vstep3 m = eraseKey m (strOf "Name") := by
  unfold vstep3
  cases h1 : lookupA m (strOf "Name") with
  | none => exact Or.inl rfl
  | some a =>
      cases h2 : lookupA m (strOf "Surname") with
      | none => exact Or.inl rfl
      | some b =>
          by_cases hab : a = b
          · dsimp only
            rw [if_pos hab]
            exact Or.inr rfl
          · dsimp only
            rw [if_neg hab]
            exact Or.inl rfl

theorem vstep2_eq_self (m : FMap)
    (h : ∀ a b, lookupA m (strOf "First Surname") = some a →
         lookupA m (strOf "Second Surname") = some b → a ≠ b) :
    vstep2 m = m := by
  unfold vstep2
  cases h1 : lookupA m (strOf "First Surname") with
  | none => rfl
  | some a =>
      cases h2 : lookupA m (strOf "Second Surname") with
      | none => rfl
      | some b =>
          dsimp only
          rw [if_neg (h a b h1 h2)]

theorem vstep3_eq_self (m : FMap)
    (h : ∀ a b, lookupA m (strOf "Name") = some a →
         lookupA m (strOf "Surname") = some b → a ≠ b) :
    vstep3 m = m := by
  unfold vstep3
  cases h1 : lookupA m (strOf "Name") with
  | none => rfl
  | some a =>
      cases h2 : lookupA m (strOf "Surname") with
      | none => rfl
      | some b =>
          dsimp only
          rw [if_neg (h a b h1 h2)]

theorem vstep2_no_dup (m : FMap) :
    ∀ a b, lookupA (vstep2 m) (strOf "First Surname") = some a →
      lookupA (vstep2 m) (strOf "Second Surname") = some b → a ≠ b := by
  unfold vstep2
  cases h1 : lookupA m (strOf "First Surname") with
  | none =>
      dsimp only
      intro a b ha _
      rw [h1] at ha
      cases ha
  | some a0 =>
      cases h2 : lookupA m (strOf "Second Surname") with
      | none =>
          dsimp only
          intro a b _ hb
          rw [h2] at hb
          cases hb
      | some b0 =>
          by_cases hab : a0 = b0
          · dsimp only
            rw [if_pos hab]
            intro a b _ hb
            rw [lookupA_eraseKey_self] at hb
            cases hb
          · dsimp only
            rw [if_neg hab]
            intro a b ha hb
            rw [h1] at ha
            rw [h2] at hb
            cases ha
            cases hb
            exact hab

theorem vstep3_no_dup (m : FMap) :
    ∀ a b, lookupA (vstep3 m) (strOf "Name") = some a →
      lookupA (vstep3 m) (strOf "Surname") = some b → a ≠ b := by
  unfold vstep3
  cases h1 : lookupA m (strOf "Name") with
  | none =>
      dsimp only
      intro a b ha _
      rw [h1] at ha
      cases ha
  | some a0 =>
      cases h2 : lookupA m (strOf "Surname") with
      | none =>
          dsimp only
          intro a b _ hb
          rw [h2] at hb
          cases hb
      | some b0 =>
          by_cases hab : a0 = b0
          · dsimp only
            rw [if_pos hab]
            intro a b ha _
            rw [lookupA_eraseKey_self] at ha
            cases ha
          · dsimp only
            rw [if_neg hab]
            intro a b ha hb
            rw [h1] at ha
            rw [h2] at hb
            cases ha
            cases hb
            exact hab

theorem lookupA_vstep2 (m : FMap) (k : Str) (h : k ≠ strOf "Second Surname") :
    lookupA (vstep2 m) k = lookupA m k := by
  rcases vstep2_cases m with hc | hc <;> rw [hc]
  exact lookupA_eraseKey_ne m _ k h

theorem lookupA_vstep3 (m : FMap) (k : Str) (h : k ≠ strOf "Name") :
    lookupA (vstep3 m) k = lookupA m k := by
  rcases vstep3_cases m with hc | hc <;> rw [hc]
  exact lookupA_eraseKey_ne m _ k h

theorem vstep4_eq_none (m : FMap) (h : lookupA m (strOf "Nationality") = none) :
    vstep4 m = m := by
  unfold vstep4
  rw [h]

theorem vstep4_eq_some (m : FMap) (v : Str) (hnd : (m.map Prod.fst).Nodup)
    (h : lookupA m (strOf "Nationality") = some v) :
    vstep4 m = setKey m (strOf "Nationality") (natCanon v) := by
  unfold vstep4 natCanon
  rw [h]
  dsimp only
  split_ifs
  · rfl
  · rfl
  · exact (setKey_self m _ v hnd h).symm

theorem lookupA_vstep4 (m : FMap) (k : Str) (h : k ≠ strOf "Nationality") :
    lookupA (vstep4 m) k = lookupA m k := by
  unfold vstep4
  cases h1 : lookupA m (strOf "Nationality") with
  | none => rfl
  | some v =>
      dsimp only
      split_ifs <;> first | exact lookupA_setKey_ne m _ _ k h | rfl

theorem vstep5_eq_self (m : FMap)
    (h : ∀ v, lookupA m (strOf "Issuing Authority") = some v → v.length ≤ 40) :
    vstep5 m = m := by
  unfold vstep5
  cases h1 : lookupA m (strOf "Issuing Authority") with
  | none => rfl
  | some a =>
      dsimp only
      rw [if_neg (Nat.not_lt.mpr (h a h1))]

theorem vstep1_eq_self (m : FMap) (h : ∀ e ∈ m, isValidFV e.1 e.2 = true) :
    vstep1 m = m := by
  unfold vstep1
  induction m with
  | nil => rfl
  | cons e r ih =>
      rw [List.filter_cons]
      rw [h e (List.mem_cons_self e r)]
      simp only [if_true]
      rw [ih (fun e' he' => h e' (List.mem_cons_of_mem e he'))]

/-- Restricted idempotence of `intelligent_validation_cleanup`: on a
mapping with distinct keys whose `Issuing Authority` value (if any) is
at most 40 characters, running cleanup twice equals running it once. -/
theorem cleanup_idem (m : FMap) (hnd : (m.map Prod.fst).Nodup)
    (hIA : ∀ v, lookupA m (strOf "Issuing Authority") = some v → v.length ≤ 40) :
    intelligent_validation_cleanup (intelligent_validation_cleanup m) =
      intelligent_validation_cleanup m := by
  have hval1 : ∀ e ∈ vstep1 m, isValidFV e.1 e.2 = true :=
    fun e he => (List.mem_filter.mp he).2
  have hnd1 : ((vstep1 m).map Prod.fst).Nodup := nodup_keys_filter m _ hnd
  have hsub1 : ∀ e, e ∈ vstep1 m → e ∈ m := fun e he => List.mem_of_mem_filter he
  have hIA1 : ∀ v, lookupA (vstep1 m) (strOf "Issuing Authority") = some v →
      v.length ≤ 40 :=
    fun v hv => hIA v (mem_lookupA hnd (hsub1 _ (lookupA_mem hv)))
  have hsub2 : ∀ e, e ∈ vstep2 (vstep1 m) → e ∈ vstep1 m := by
    intro e he
    rcases vstep2_cases (vstep1 m) with hc | hc
    · rw [hc] at he
      exact he
    · rw [hc] at he
      exact mem_eraseKey _ _ he
  have hnd2 : ((vstep2 (vstep1 m)).map Prod.fst).Nodup := by
    rcases vstep2_cases (vstep1 m) with hc | hc
    · rw [hc]
      exact hnd1
    · rw [hc]
      exact nodup_keys_eraseKey _ _ hnd1
  have hval2 : ∀ e ∈ vstep2 (vstep1 m), isValidFV e.1 e.2 = true :=
    fun e he => hval1 e (hsub2 e he)
  have hIA2 : ∀ v, lookupA (vstep2 (vstep1 m)) (strOf "Issuing Authority") = some v →
      v.length ≤ 40 := by
    intro v hv
    rw [lookupA_vstep2 _ _ (by decide)] at hv
    exact hIA1 v hv
  have hsub3 : ∀ e, e ∈ vstep3 (vstep2 (vstep1 m)) → e ∈ vstep2 (vstep1 m) := by
    intro e he
    rcases vstep3_cases (vstep2 (vstep1 m)) with hc | hc
    · rw [hc] at he
      exact he
    · rw [hc] at he
      exact mem_eraseKey _ _ he
  have hnd3 : ((vstep3 (vstep2 (vstep1 m))).map Prod.fst).Nodup := by
    rcases vstep3_cases (vstep2 (vstep1 m)) with hc | hc
    · rw [hc]
      exact hnd2
    · rw [hc]
      exact nodup_keys_eraseKey _ _ hnd2
  have hval3 : ∀ e ∈ vstep3 (vstep2 (vstep1 m)), isValidFV e.1 e.2 = true :=
    fun e he => hval2 e (hsub3 e he)
  have hIA3 : ∀ v,
      lookupA (vstep3 (vstep2 (vstep1 m))) (strOf "Issuing Authority") = some v →
      v.length ≤ 40 := by
    intro v hv
    rw [lookupA_vstep3 _ _ (by decide)] at hv
    exact hIA2 v hv
  have hval4 : ∀ e ∈ vstep4 (vstep3 (vstep2 (vstep1 m))), isValidFV e.1 e.2 = true := by
    intro e he
    cases h4 : lookupA (vstep3 (vstep2 (vstep1 m))) (strOf "Nationality") with
    | none =>
        rw [vstep4_eq_none _ h4] at he
        exact hval3 e he
    | some v =>
        rw [vstep4_eq_some _ v hnd3 h4] at he
        rcases mem_setKey _ _ _ he with he1 | he1
        · rw [he1]
          exact isValidFV_natCanon v (hval3 (strOf "Nationality", v) (lookupA_mem h4))
        · exact hval3 e he1
  have hnd4 : ((vstep4 (vstep3 (vstep2 (vstep1 m)))).map Prod.fst).Nodup := by
    cases h4 : lookupA (vstep3 (vstep2 (vstep1 m))) (strOf "Nationality") with
    | none =>
        rw [vstep4_eq_none _ h4]
        exact hnd3
    | some v =>
        rw [vstep4_eq_some _ v hnd3 h4, map_fst_setKey]
        exact hnd3
  have hIA4 : ∀ v,
      lookupA (vstep4 (vstep3 (vstep2 (vstep1 m)))) (strOf "Issuing Authority") = some v →
      v.length ≤ 40 := by
    intro v hv
    rw [lookupA_vstep4 _ _ (by decide)] at hv
    exact hIA3 v hv
  have hd2_4 : ∀ a b,
      lookupA (vstep4 (vstep3 (vstep2 (vstep1 m)))) (strOf "First Surname") = some a →
      lookupA (vstep4 (vstep3 (vstep2 (vstep1 m)))) (strOf "Second Surname") = some b →
      a ≠ b := by
    intro a b ha hb
    rw [lookupA_vstep4 _ _ (by decide), lookupA_vstep3 _ _ (by decide)] at ha hb
    exact vstep2_no_dup (vstep1 m) a b ha hb
  have hd3_4 : ∀ a b,
      lookupA (vstep4 (vstep3 (vstep2 (vstep1 m)))) (strOf "Name") = some a →
      lookupA (vstep4 (vstep3 (vstep2 (vstep1 m)))) (strOf "Surname") = some b →
      a ≠ b := by
    intro a b ha hb
    rw [lookupA_vstep4 _ _ (by decide)] at ha hb
    exact vstep3_no_dup (vstep2 (vstep1 m)) a b ha hb
  have hnat4 : ∀ v,
      lookupA (vstep4 (vstep3 (vstep2 (vstep1 m)))) (strOf "Nationality") = some v →
      natCanon v = v := by
    intro v hv
    cases h4 : lookupA (vstep3 (vstep2 (vstep1 m))) (strOf "Nationality") with
    | none =>
        rw [vstep4_eq_none _ h4, h4] at hv
        cases hv
    | some w =>
        rw [vstep4_eq_some _ w hnd3 h4, lookupA_setKey_self _ _ _ w h4] at hv
        cases hv
        exact natCanon_idem w
  have hvstep4c4 :
      vstep4 (vstep4 (vstep3 (vstep2 (vstep1 m)))) = vstep4 (vstep3 (vstep2 (vstep1 m))) := by
    cases h4 : lookupA (vstep4 (vstep3 (vstep2 (vstep1 m)))) (strOf "Nationality") with
    | none => exact vstep4_eq_none _ h4
    | some v =>
        rw [vstep4_eq_some _ v hnd4 h4, hnat4 v h4]
        exact setKey_self _ _ v hnd4 h4
  have hpass1 : intelligent_validation_cleanup m = vstep4 (vstep3 (vstep2 (vstep1 m))) := by
    unfold intelligent_validation_cleanup
    rw [vstep5_eq_self _ hIA4]
  rw [hpass1]
  unfold intelligent_validation_cleanup
  rw [vstep1_eq_self _ hval4, vstep2_eq_self _ hd2_4, vstep3_eq_self _ hd3_4, hvstep4c4,
     vstep5_eq_self _ hIA4]

set_option maxRecDepth 10000

theorem cleanup_nationality_singleton (v : Str)
    (hv : isValidFV (strOf "Nationality") v = true) :
    intelligent_validation_cleanup [(strOf "Nationality", v)] =
      [(strOf "Nationality", natCanon v)] := by
  have h1 : vstep1 [(strOf "Nationality", v)] = [(strOf "Nationality", v)] := by
    apply vstep1_eq_self
    intro e he
    rw [List.mem_singleton.mp he]
    exact hv
  have h2 : vstep2 [(strOf "Nationality", v)] = [(strOf "Nationality", v)] := by
    apply vstep2_eq_self
    intro a b ha _
    rw [lookupA_cons, if_neg (by decide), lookupA_nil] at ha
    cases ha
  have h3 : vstep3 [(strOf "Nationality", v)] = [(strOf "Nationality", v)] := by
    apply vstep3_eq_self
    intro a b ha _
    rw [lookupA_cons, if_neg (by decide), lookupA_nil] at ha
    cases ha
  have hlook : lookupA [(strOf "Nationality", v)] (strOf "Nationality") = some v := by
    rw [lookupA_cons, if_pos rfl]
  have h4 : vstep4 [(strOf "Nationality", v)] = [(strOf "Nationality", natCanon v)] := by
    rw [vstep4_eq_some _ v (by simp) hlook]
    rw [setKey_cons, if_pos rfl, setKey_nil]
  have h5 : vstep5 [(strOf "Nationality", natCanon v)] =
      [(strOf "Nationality", natCanon v)] := by
    apply vstep5_eq_self
    intro w hw
    rw [lookupA_cons, if_neg (by decide), lookupA_nil] at hw
    cases hw
  unfold intelligent_validation_cleanup
  rw [h1, h2, h3, h4, h5]

/-! ### Claim theorems -/

/-- C1: the claim says the classifier adds 3 to `spanish_score` whenever
the text contains an 8-digit-then-letter substring and 3 to `greek_score`
for a 1-to-3-letter-then-6-to-8-digit substring, and that these bonuses
can change the returned `DocumentType`.  On the code this is a bug: both
shape regexes demand a case-sensitive uppercase `[A-Z]` letter but are
searched over `text.lower()`, so neither bonus can ever fire, for any
input; in particular `"12345678Z"` scores 0-0 and falls to the
`greek_passport` tie-break instead of becoming `spanish_dni`. -/
theorem C1_pattern_bonus_never_fires :
    (∀ t : Str, spanishShapeHit t = false ∧ greekShapeHit t = false) ∧
    intelligent_document_detection (strOf "12345678Z") = strOf "greek_passport" ∧
    spanishScoreOf (strOf "12345678Z") = 0 ∧ greekScoreOf (strOf "12345678Z") = 0 :=
  ⟨fun t => ⟨spanishShapeHit_false t, greekShapeHit_false t⟩, by decide, by decide, by decide⟩

/-- C2 counterexample: for the empty-string input,
`clean_and_format_document_fields` returns the empty list, not the
single raw-excerpt fallback entry that the claim demands. -/
theorem C2_counterexample :
    clean_and_format_document_fields (strOf "") = [] ∧
    clean_and_format_document_fields (strOf "") ≠
      [(strOf "Extracted Text:", strOf "")] := by decide

/-- C2 (amended): malformed input yields an empty field mapping; the
formatter returns the empty list (no fallback) for empty input, and for
the unmatched text `"xz qq 42"` it returns exactly one raw-excerpt
fallback entry carrying the input verbatim. -/
theorem C2_amended_behavior :
    ultimate_extract_document_fields (strOf "") = [] ∧
    clean_and_format_document_fields (strOf "") = [] ∧
    ultimate_extract_document_fields (strOf "xz qq 42") = [] ∧
    clean_and_format_document_fields (strOf "xz qq 42") =
      [(strOf "Extracted Text:", strOf "xz qq 42")] := by decide

/-- C3 counterexample: on `"dni nationality"` the document type that
selects the extraction pattern set (computed from the preprocessed text,
where the `nationality` label has been stripped) is `spanish_dni`, while
the type that selects the presentation order (computed from the raw
text) is `greek_passport`. -/
theorem C3_counterexample :
    extractionDocType (strOf "dni nationality") = strOf "spanish_dni" ∧
    formattingDocType (strOf "dni nationality") = strOf "greek_passport" := by decide

/-- C3 (amended): the extraction-side and formatting-side document
types agree exactly when classification commutes with preprocessing;
they are two independent computations, not one decision. -/
theorem C3_amended_agreement (t : Str)
    (h : intelligent_document_detection (ultimate_preprocessing t) =
         intelligent_document_detection t) :
    extractionDocType t = formattingDocType t := h

theorem C3_amended_agreement_witness :
    extractionDocType (strOf "hellenic") = formattingDocType (strOf "hellenic") :=
  C3_amended_agreement (strOf "hellenic") (by decide)

/-- C4 counterexample: `Issuing Authority` is NOT exempt from the
character-class check: a value containing a dot is rejected for it,
while the same value without the dot is accepted, and a genuinely
exempt field (`Height`) accepts dotted values. -/
theorem C4_counterexample :
    isValidFV (strOf "Issuing Authority") (strOf "NAT. PASSPORT CENTER") = false ∧
    isValidFV (strOf "Issuing Authority") (strOf "NAT PASSPORT CENTER") = true ∧
    isValidFV (strOf "Height") (strOf "1.75") = true := by decide

/-- C4 (amended): a value containing a character outside the expected
letter/diacritic/whitespace set is rejected unless the field is one of
the eight exempted fields (`DNI Number`, `Passport Number`, `ID Number`,
`Date of Birth`, `Issue Date`, `Expiry Date`, `Valid Until`, `Height`);
`Issuing Authority` is not in the exemption list. -/
theorem C4_charclass_rejection (f v : Str)
    (hf : freeFormFields.contains f = false)
    (hc : (stripStr (lowerStr v)).any isInvalidValueCh = true) :
    isValidFV f v = false := by
  unfold isValidFV is_valid_field_value
  split_ifs <;> simp_all

theorem C4_charclass_rejection_witness :
    isValidFV (strOf "Issuing Authority") (strOf "OFFICE-OF-ATHENS") = false :=
  C4_charclass_rejection _ _ (by decide) (by decide)

/-- C5 counterexample: the extracted Nationality value
`"Hellenic Republic"` is not canonicalized to `"HELLENIC"`: it fails the
resolver's re-validation (its lowercase form is not in the allowed
nationality set) and is dropped entirely, so the resolver's output is
empty. -/
theorem C5_counterexample :
    intelligent_validation_cleanup [(strOf "Nationality", strOf "Hellenic Republic")] =
      [] := by decide

/-- C5 (amended): for Nationality values that survive re-validation,
the resolver canonicalizes: a value containing `hellenic` or `greek`
(case-insensitively) maps to `HELLENIC`, one containing `esp` maps to
`ESP`, and every other surviving value is left unchanged;
`"Hellenic Republic"` does not survive re-validation. -/
theorem C5_nationality_canonicalization (v : Str)
    (hv : isValidFV (strOf "Nationality") v = true) :
    intelligent_validation_cleanup [(strOf "Nationality", v)] =
      [(strOf "Nationality", natCanon v)] :=
  cleanup_nationality_singleton v hv

theorem C5_nationality_canonicalization_witness :
    intelligent_validation_cleanup [(strOf "Nationality", strOf "Hellenic")] =
      [(strOf "Nationality", strOf "HELLENIC")] := by
  rw [C5_nationality_canonicalization (strOf "Hellenic") (by decide)]
  decide

/-- C6 counterexample: conflict resolution is not idempotent in
general: a 45-character `Issuing Authority` value made of caseless
letters survives validation, gets truncated to 25 characters plus
`"..."` by the first cleanup, and the second cleanup then drops it
because the dots fail the character-class check. -/
theorem C6_counterexample :
    intelligent_validation_cleanup
        [(strOf "Issuing Authority", List.replicate 45 0xCE58)] =
      [(strOf "Issuing Authority", List.replicate 25 0xCE58 ++ strOf "...")] ∧
    intelligent_validation_cleanup (intelligent_validation_cleanup
        [(strOf "Issuing Authority", List.replicate 45 0xCE58)]) = [] := by decide

/-- C6 (amended): every value accepted during extraction still
validates after the stored upper-casing and trimming, and conflict
resolution is idempotent on every mapping (with distinct field names)
whose `Issuing Authority` value, if present, is at most 40 characters —
the only non-idempotent path is the over-40-character authority
truncation exhibited by the counterexample. -/
theorem C6_validator_resolver_idempotence :
    (∀ f v : Str, isValidFV f v = true → isValidFV f (stripStr (upperStr v)) = true) ∧
    (∀ m : FMap, (m.map Prod.fst).Nodup →
      (∀ v, lookupA m (strOf "Issuing Authority") = some v → v.length ≤ 40) →
      intelligent_validation_cleanup (intelligent_validation_cleanup m) =
        intelligent_validation_cleanup m) :=
  ⟨fun f v h => (isValidFV_upper_strip f v).trans h, cleanup_idem⟩

theorem C6_validator_resolver_idempotence_witness :
    isValidFV (strOf "Name") (stripStr (upperStr (strOf "elektra"))) = true ∧
    intelligent_validation_cleanup (intelligent_validation_cleanup
        [(strOf "Surname", strOf "NIKOLAIDIS"), (strOf "Nationality", strOf "GREEK")]) =
      intelligent_validation_cleanup
        [(strOf "Surname", strOf "NIKOLAIDIS"), (strOf "Nationality", strOf "GREEK")] := by
  constructor
  · exact C6_validator_resolver_idempotence.1 (strOf "Name") (strOf "elektra") (by decide)
  · refine C6_validator_resolver_idempotence.2 _ (by decide) ?_
    intro v hv
    rw [show lookupA [(strOf "Surname", strOf "NIKOLAIDIS"),
          (strOf "Nationality", strOf "GREEK")] (strOf "Issuing Authority") = none
        by decide] at hv
    cases hv

/-- C7 counterexample: the dedup boundary is strict: `"bcdef"` is a
substring of the already-kept line `"abcdef"` which is exactly 1.2
times longer (6 = 1.2 x 5), yet the line is KEPT — refuting the
claim's "at least 1.2 times longer" reading — and the full normalizer
keeps both lines. -/
theorem C7_counterexample :
    keepStep [strOf "abcdef"] (strOf "bcdef") = true ∧
    6 * (stripStr (strOf "bcdef")).length ≤ 5 * (strOf "abcdef").length ∧
    containsSub (stripStr (strOf "bcdef")) (strOf "abcdef") = true ∧
    ultimate_preprocessing (strOf "abcdef\nbcdef") = strOf "abcdef bcdef" := by decide

/-- C7 (amended): a line is kept iff its stripped form is non-empty,
longer than one character, not already kept verbatim, and not a literal
substring of an already-kept line MORE than 1.2 times longer (strict:
`5·len(existing) > 6·len(line)`); consequently
`"NAME\nJOHN SMITH\nJOHN SMITH\n"` normalizes to exactly
`"john smith"`. -/
theorem C7_keep_rule :
    (∀ (kept : List Str) (line : Str),
       keepStep kept line = true ↔
         (stripStr line ≠ [] ∧ 1 < (stripStr line).length ∧ stripStr line ∉ kept ∧
           ∀ e ∈ kept, ¬(6 * (stripStr line).length < 5 * e.length ∧
             containsSub (stripStr line) e = true))) ∧
    ultimate_preprocessing (strOf "NAME\nJOHN SMITH\nJOHN SMITH\n") = strOf "john smith" := by
  constructor
  · intro kept line
    unfold keepStep
    dsimp only
    simp only [Bool.and_eq_true, decide_eq_true_eq, Bool.not_eq_true']
    constructor
    · rintro ⟨⟨⟨hne, hlen⟩, hmem⟩, hany⟩
      refine ⟨hne, hlen, fun hm => ?_, fun e he hcon => ?_⟩
      · have hmem' : List.elem (stripStr line) kept = false := hmem
        rw [List.elem_iff.mpr hm] at hmem'
        cases hmem'
      · rw [List.any_eq_true.mpr ⟨e, he, by
            rw [Bool.and_eq_true, decide_eq_true_eq]
            exact ⟨hcon.1, hcon.2⟩⟩] at hany
        cases hany
    · rintro ⟨hne, hlen, hmem, hdup⟩
      refine ⟨⟨⟨hne, hlen⟩, ?_⟩, ?_⟩
      · cases hc : kept.contains (stripStr line)
        · rfl
        · exact absurd (List.elem_iff.mp hc) hmem
      · cases hany : kept.any
            (fun e => decide (6 * (stripStr line).length < 5 * e.length) &&
              containsSub (stripStr line) e)
        · rfl
        · rw [List.any_eq_true] at hany
          obtain ⟨e, he, hpe⟩ := hany
          rw [Bool.and_eq_true, decide_eq_true_eq] at hpe
          exact absurd ⟨hpe.1, hpe.2⟩ (hdup e he)
  · decide

theorem C7_keep_rule_witness : keepStep [] (strOf "ab") = true :=
  (C7_keep_rule.1 [] (strOf "ab")).mpr
    ⟨by decide, by decide, by simp, by simp⟩

/-- C8: the classifier returns `spanish_dni` iff `spanish_score`
strictly exceeds `greek_score` and `greek_passport` otherwise (Greek
wins ties); in particular every text scoring 4-4 classifies as
`greek_passport`. -/
theorem C8_tie_break :
    (∀ t : Str,
       (intelligent_document_detection t = strOf "spanish_dni" ↔
         spanishScoreOf t > greekScoreOf t) ∧
       (intelligent_document_detection t = strOf "greek_passport" ↔
         ¬ spanishScoreOf t > greekScoreOf t)) ∧
    (∀ t : Str, spanishScoreOf t = 4 → greekScoreOf t = 4 →
       intelligent_document_detection t = strOf "greek_passport") := by
  constructor
  · intro t
    unfold intelligent_document_detection
    by_cases h : spanishScoreOf t > greekScoreOf t
    · rw [if_pos h]
      exact ⟨⟨fun _ => h, fun _ => rfl⟩,
             ⟨fun he => absurd he (by decide), fun hn => absurd h hn⟩⟩
    · rw [if_neg h]
      exact ⟨⟨fun he => absurd he (by decide), fun hg => absurd hg h⟩,
             ⟨fun _ => h, fun _ => rfl⟩⟩
  · intro t hs hg
    unfold intelligent_document_detection
    rw [if_neg (by omega)]

theorem C8_tie_break_witness :
    spanishScoreOf (strOf "dni esp hellas greece") = 4 ∧
    greekScoreOf (strOf "dni esp hellas greece") = 4 ∧
    intelligent_document_detection (strOf "dni esp hellas greece") =
      strOf "greek_passport" :=
  ⟨by decide, by decide, C8_tie_break.2 _ (by decide) (by decide)⟩

/-- C9: totality — both pipeline entry points are total functions of the
input string (every fallible operation of the source is guarded), and on
representative edge inputs (empty string, non-Latin garbage) they
return plain values: the empty list, respectively the raw-excerpt
fallback. -/
theorem C9_totality :
    (∀ s : Str, ∃ fields : List (Str × Str),
       clean_and_format_document_fields s = fields ∧
       ∃ mp : FMap, ultimate_extract_document_fields s = mp) ∧
    clean_and_format_document_fields (List.replicate 12 0x4E2D) =
      [(strOf "Extracted Text:", List.replicate 12 0x4E2D)] ∧
    ultimate_extract_document_fields (List.replicate 12 0x4E2D) = [] ∧
    clean_and_format_document_fields [] = [] :=
  ⟨fun s => ⟨_, rfl, _, rfl⟩, by decide, by decide, by decide⟩

theorem C9_totality_witness :
    ∃ fields : List (Str × Str),
      clean_and_format_document_fields (strOf "garbage input") = fields ∧
      ∃ mp : FMap, ultimate_extract_document_fields (strOf "garbage input") = mp :=
  C9_totality.1 (strOf "garbage input")

/-- C10: every non-empty input containing the substring `"Translation"`
makes `clean_and_format_document_fields` return the empty sequence: no
fields and no raw-excerpt fallback. -/
theorem C10_translation_marker_empty (s : Str) (h1 : s ≠ [])
    (h2 : containsSub (strOf "Translation") s = true) :
    clean_and_format_document_fields s = [] := by
  unfold clean_and_format_document_fields
  simp [h2]

theorem C10_translation_marker_empty_witness :
    clean_and_format_document_fields (strOf "Translation of document") = [] :=
  C10_translation_marker_empty _ (by decide) (by decide)
